import Mathlib

/-!
# NovaFund — verification of the lifecycle resolver, refund engine and helpers

This file embeds the NovaFund crowdfunding core (project lifecycle resolver
and refund engine), the creator trust-score calculator, the risk-engine
success predictor and the notification email-retry task, and proves the
stated properties about them.

The on-ledger core (`contracts/project-launch/src/lib.rs`) is not among the
available sources — only its accompanying documentation is — so the core is
modelled from the specification text (sections 3–7 of the design document),
which describes its data model, precondition order and write order in full.
Each such definition carries a `Modelled from the spec:` doc comment.

Machine integers of the source (`u64` identifiers and timestamps, `i128`
amounts) are far from their overflow bounds in every behaviour considered
here, so they are modelled as `Nat` / `Int`.
-/

namespace NovaFund

/-- Modelled from the spec: project lifecycle status,
`status ∈ {Active, Completed, Failed, Cancelled}` (spec §3). -/
inductive ProjectStatus
  | Active
  | Completed
  | Failed
  | Cancelled
deriving DecidableEq, Repr

/-- Modelled from the spec: the error taxonomy of the core (spec §7):
`NotFound`, `InvalidInput`, `InvalidProjectStatus`, `ProjectNotActive`. -/
inductive CoreError
  | NotFound
  | InvalidInput
  | InvalidProjectStatus
  | ProjectNotActive
deriving DecidableEq, Repr

/-- Modelled from the spec: the Project record (spec §3): `creator`,
`funding_goal`, `deadline`, `token`, `total_raised`, `status`.
Addresses and asset identifiers are abstracted as `Nat`. -/
structure Project where
  creator : Nat
  funding_goal : Int
  deadline : Nat
  token : Nat
  total_raised : Int
  status : ProjectStatus
deriving DecidableEq, Repr

/-- Modelled from the spec: the events the core emits (spec §6):
`PROJECT_FAILED(project_id)` and `REFUND_ISSUED(project_id, contributor, amount)`. -/
inductive CoreEvent
  | projectFailed (project_id : Nat)
  | refundIssued (project_id : Nat) (contributor : Nat) (amount : Int)
deriving DecidableEq, Repr

/-- Modelled from the spec: a single storage write of the core.  The spec
fixes the order of writes inside each operation ("set
`ProjectFailureProcessed(project_id) = true` as the last write", spec §4.1),
so each operation below returns its ordered write list, which is then folded
over the state. -/
inductive CoreWrite
  | setStatus (project_id : Nat) (st : ProjectStatus)
  | setFailureProcessed (project_id : Nat)
  | setRefundProcessed (project_id : Nat) (contributor : Nat)
deriving DecidableEq, Repr

/-- Modelled from the spec: the ledger storage visible to the core (spec §3
and §6 storage-key schema): project records by `project_id`, contribution
amounts by `(project_id, contributor)`, the two idempotency presence flags,
and the current ledger time.  Events are not part of storage — they are
per-call outputs appended to the external transaction log (spec §2, §6). -/
@[ext]
structure CoreState where
  projects : Nat → Option Project
  contributions : Nat → Nat → Int
  refundProcessed : Nat → Nat → Bool
  failureProcessed : Nat → Bool
  ledgerTime : Nat

/-- Apply one storage write. -/
def applyWrite (s : CoreState) : CoreWrite → CoreState
  | .setStatus pid st =>
      { s with projects := fun i =>
          if i = pid then (s.projects i).map (fun p => { p with status := st })
          else s.projects i }
  | .setFailureProcessed pid =>
      { s with failureProcessed := fun i =>
          if i = pid then true else s.failureProcessed i }
  | .setRefundProcessed pid c =>
      { s with refundProcessed := fun i a =>
          if i = pid ∧ a = c then true else s.refundProcessed i a }

/-- Apply an ordered list of storage writes. -/
def applyWrites (s : CoreState) (ws : List CoreWrite) : CoreState :=
  ws.foldl applyWrite s

/-- Modelled from the spec: the Lifecycle Resolver `resolve_outcome`
(spec §4.1; `mark_project_failed` in the missing contract source).
Preconditions in order: existence (`NotFound`), ledger time strictly past
the deadline (`InvalidInput`), then flag absent and status Active
(`InvalidProjectStatus`).  On success it returns the ordered write list,
the emitted events and the committed terminal status. -/
def resolve_outcome (s : CoreState) (project_id : Nat) :
    Except CoreError (List CoreWrite × List CoreEvent × ProjectStatus) :=
  match s.projects project_id with
  | none => .error .NotFound
  | some p =>
      if p.deadline < s.ledgerTime then
        if s.failureProcessed project_id = false ∧ p.status = ProjectStatus.Active then
          if p.funding_goal ≤ p.total_raised then
            .ok ([CoreWrite.setStatus project_id ProjectStatus.Completed,
                  CoreWrite.setFailureProcessed project_id],
                 [], ProjectStatus.Completed)
          else
            .ok ([CoreWrite.setStatus project_id ProjectStatus.Failed,
                  CoreWrite.setFailureProcessed project_id],
                 [CoreEvent.projectFailed project_id], ProjectStatus.Failed)
        else .error .InvalidProjectStatus
      else .error .InvalidInput

/-- Modelled from the spec: the Refund Engine `refund` (spec §4.2;
`refund_contributor` in the missing contract source).  Preconditions in
order: existence (`NotFound`), status Failed (`ProjectNotActive`), refund
flag absent (`InvalidInput`), strictly positive recorded contribution
(`InvalidInput`).  A successful call stands for a call whose token transfer
was accepted; a rejected transfer aborts the whole transaction, which is the
same observable outcome as an error (spec §4.2, §5). -/
def refund (s : CoreState) (project_id contributor : Nat) :
    Except CoreError (List CoreWrite × List CoreEvent × Int) :=
  match s.projects project_id with
  | none => .error .NotFound
  | some p =>
      if p.status = ProjectStatus.Failed then
        if s.refundProcessed project_id contributor then .error .InvalidInput
        else
          if 0 < s.contributions project_id contributor then
            .ok ([CoreWrite.setRefundProcessed project_id contributor],
                 [CoreEvent.refundIssued project_id contributor
                    (s.contributions project_id contributor)],
                 s.contributions project_id contributor)
          else .error .InvalidInput
      else .error .ProjectNotActive

/-- `resolve_outcome` together with the commit of its writes. -/
def resolveOutcomeRun (s : CoreState) (project_id : Nat) :
    Except CoreError (CoreState × List CoreEvent × ProjectStatus) :=
  (resolve_outcome s project_id).map (fun r => (applyWrites s r.1, r.2.1, r.2.2))

/-- `refund` together with the commit of its writes. -/
def refundRun (s : CoreState) (project_id contributor : Nat) :
    Except CoreError (CoreState × List CoreEvent × Int) :=
  (refund s project_id contributor).map (fun r => (applyWrites s r.1, r.2.1, r.2.2))

/-- One externally submitted transaction against the core: a
`resolve_outcome` call, a `refund` call, or the passage of ledger time
between transactions.  The host serializes transactions (spec §5), so a run
is a list of these, applied one after the other. -/
inductive CoreOp
  | resolve (project_id : Nat)
  | refundCall (project_id : Nat) (contributor : Nat)
  | tick (dt : Nat)
deriving DecidableEq, Repr

/-- Apply one transaction: a failing call aborts and leaves the state
untouched (all-or-nothing semantics, spec §5). -/
def applyOp (s : CoreState) : CoreOp → CoreState
  | .resolve pid =>
      match resolveOutcomeRun s pid with
      | .ok r => r.1
      | .error _ => s
  | .refundCall pid c =>
      match refundRun s pid c with
      | .ok r => r.1
      | .error _ => s
  | .tick dt => { s with ledgerTime := s.ledgerTime + dt }

/-- Apply a serialized list of transactions. -/
def runOps (s : CoreState) (ops : List CoreOp) : CoreState :=
  ops.foldl applyOp s

/-- Amount paid out by one transaction for project `pid`: the amount a
successful `refund` on `pid` returns, `0` for anything else. -/
def paidAmount (s : CoreState) (pid : Nat) : CoreOp → Int
  | .refundCall pid' c =>
      if pid' = pid then
        match refund s pid' c with
        | .ok r => r.2.2
        | .error _ => 0
      else 0
  | _ => 0

/-- Sum of the amounts returned by the successful `refund` calls for
project `pid` over a serialized run. -/
def totalRefunded (s : CoreState) (pid : Nat) : List CoreOp → Int
  | [] => 0
  | op :: ops => paidAmount s pid op + totalRefunded (applyOp s op) pid ops

/-! ### Concrete sample states, used by the witnesses -/

/-- A ledger state holding no project at all. -/
def emptyCoreState : CoreState where
  projects := fun _ => none
  contributions := fun _ _ => 0
  refundProcessed := fun _ _ => false
  failureProcessed := fun _ => false
  ledgerTime := 0

/-- An underfunded active sample project: goal 1000, raised 30, deadline 100. -/
def sampleProject : Project where
  creator := 1
  funding_goal := 1000
  deadline := 100
  token := 7
  total_raised := 30
  status := ProjectStatus.Active

/-- Ledger state holding `sampleProject` at id 0, past its deadline, with
contributions of 10 from contributor 1 and 20 from contributor 2. -/
def sampleState : CoreState where
  projects := fun i => if i = 0 then some sampleProject else none
  contributions := fun i a =>
    if i = 0 ∧ a = 1 then 10 else if i = 0 ∧ a = 2 then 20 else 0
  refundProcessed := fun _ _ => false
  failureProcessed := fun _ => false
  ledgerTime := 101

/-- `sampleProject` after the resolver committed the Failed outcome. -/
def failedProject : Project :=
  { sampleProject with status := ProjectStatus.Failed }

/-- `sampleState` after the resolver committed the Failed outcome. -/
def failedState : CoreState :=
  { sampleState with
      projects := fun i => if i = 0 then some failedProject else none
      failureProcessed := fun i => if i = 0 then true else false }

/-! ### Error-order theorems (claims C5, C6) -/

/-- Helper: `resolve_outcome` rejects with `InvalidProjectStatus` whenever
existence and deadline pass but the flag is set or status is not Active. -/
theorem resolve_outcome_rejected {s : CoreState} {pid : Nat} (p : Project)
    (hp : s.projects pid = some p) (ht : p.deadline < s.ledgerTime)
    (hbad : s.failureProcessed pid = true ∨ p.status ≠ ProjectStatus.Active) :
    resolve_outcome s pid = .error CoreError.InvalidProjectStatus := by
  have hcond : ¬ (s.failureProcessed pid = false ∧ p.status = ProjectStatus.Active) := by
    rcases hbad with hb | hb
    · simp [hb]
    · tauto
  simp [resolve_outcome, hp, ht, hcond]

/-- C5: the preconditions of `resolve_outcome` are checked in the stated
order and the first failing one determines the error: a missing project
yields `NotFound`; otherwise ledger time not strictly greater than the
deadline yields `InvalidInput`; otherwise a set `ProjectFailureProcessed`
flag or a status other than Active yields `InvalidProjectStatus`. -/
theorem resolve_outcome_error_order (s : CoreState) (pid : Nat) :
    (s.projects pid = none →
      resolve_outcome s pid = .error CoreError.NotFound) ∧
    (∀ p, s.projects pid = some p → ¬ p.deadline < s.ledgerTime →
      resolve_outcome s pid = .error CoreError.InvalidInput) ∧
    (∀ p, s.projects pid = some p → p.deadline < s.ledgerTime →
      (s.failureProcessed pid = true ∨ p.status ≠ ProjectStatus.Active) →
      resolve_outcome s pid = .error CoreError.InvalidProjectStatus) := by
  refine ⟨fun h => by simp [resolve_outcome, h],
          fun p hp ht => by simp [resolve_outcome, hp, ht],
          fun p hp ht hbad => resolve_outcome_rejected p hp ht hbad⟩

/-- Witness for C5: all three error cases at concrete inputs — no project,
deadline not yet reached, and an already-finalized project. -/
theorem resolve_outcome_error_order_witness :
    resolve_outcome emptyCoreState 0 = .error CoreError.NotFound ∧
    resolve_outcome { sampleState with ledgerTime := 50 } 0 =
      .error CoreError.InvalidInput ∧
    resolve_outcome failedState 0 = .error CoreError.InvalidProjectStatus :=
  ⟨(resolve_outcome_error_order emptyCoreState 0).1 rfl,
   (resolve_outcome_error_order { sampleState with ledgerTime := 50 } 0).2.1
      sampleProject rfl (by decide),
   (resolve_outcome_error_order failedState 0).2.2
      failedProject rfl (by decide) (Or.inr (by decide))⟩

/-- Helper: `refund` rejects with `InvalidInput` whenever the project is
Failed but the contributor's refund flag is already set. -/
theorem refund_rejected_flag {s : CoreState} {pid c : Nat} (p : Project)
    (hp : s.projects pid = some p) (hst : p.status = ProjectStatus.Failed)
    (hflag : s.refundProcessed pid c = true) :
    refund s pid c = .error CoreError.InvalidInput := by
  simp [refund, hp, hst, hflag]

/-- C6: the preconditions of `refund` are checked in the stated order and
the first failing one determines the error: a missing project yields
`NotFound`; otherwise any status other than Failed yields
`ProjectNotActive`; otherwise an already-set `RefundProcessed` flag yields
`InvalidInput`; otherwise a non-positive recorded contribution amount
yields `InvalidInput`. -/
theorem refund_error_order (s : CoreState) (pid c : Nat) :
    (s.projects pid = none → refund s pid c = .error CoreError.NotFound) ∧
    (∀ p, s.projects pid = some p → p.status ≠ ProjectStatus.Failed →
      refund s pid c = .error CoreError.ProjectNotActive) ∧
    (∀ p, s.projects pid = some p → p.status = ProjectStatus.Failed →
      s.refundProcessed pid c = true →
      refund s pid c = .error CoreError.InvalidInput) ∧
    (∀ p, s.projects pid = some p → p.status = ProjectStatus.Failed →
      s.refundProcessed pid c = false → ¬ 0 < s.contributions pid c →
      refund s pid c = .error CoreError.InvalidInput) := by
  refine ⟨fun h => by simp [refund, h],
          fun p hp hst => by simp [refund, hp, hst],
          fun p hp hst hflag => refund_rejected_flag p hp hst hflag,
          fun p hp hst hflag hz => by simp [refund, hp, hst, hflag, hz]⟩

/-- Witness for C6: all four error cases at concrete inputs — no project,
a still-active project, an already-refunded contributor, and a contributor
with no recorded contribution. -/
theorem refund_error_order_witness :
    refund emptyCoreState 0 1 = .error CoreError.NotFound ∧
    refund sampleState 0 1 = .error CoreError.ProjectNotActive ∧
    refund { failedState with
      refundProcessed := fun i a => if i = 0 ∧ a = 1 then true else false } 0 1 =
        .error CoreError.InvalidInput ∧
    refund failedState 0 5 = .error CoreError.InvalidInput :=
  ⟨(refund_error_order emptyCoreState 0 1).1 rfl,
   (refund_error_order sampleState 0 1).2.1 sampleProject rfl (by decide),
   (refund_error_order { failedState with
      refundProcessed := fun i a => if i = 0 ∧ a = 1 then true else false } 0 1).2.2.1
      failedProject rfl rfl rfl,
   (refund_error_order failedState 0 5).2.2.2 failedProject rfl rfl rfl (by decide)⟩

/-! ### The resolver's commit (claim C1) -/

/-- C1: when every precondition of `resolve_outcome` holds, it commits
`Completed` when `total_raised ≥ funding_goal` and `Failed` otherwise,
emits `PROJECT_FAILED(project_id)` exactly on the Failed branch, and in
both branches the last write sets `ProjectFailureProcessed(project_id)`,
which is true in the committed state. -/
theorem resolve_outcome_commit (s : CoreState) (pid : Nat) (p : Project)
    (hp : s.projects pid = some p)
    (ht : p.deadline < s.ledgerTime)
    (hf : s.failureProcessed pid = false)
    (ha : p.status = ProjectStatus.Active) :
    ∃ ws evs st,
      resolve_outcome s pid = .ok (ws, evs, st) ∧
      (p.funding_goal ≤ p.total_raised →
        st = ProjectStatus.Completed ∧ evs = []) ∧
      (¬ p.funding_goal ≤ p.total_raised →
        st = ProjectStatus.Failed ∧ evs = [CoreEvent.projectFailed pid]) ∧
      ws.getLast? = some (CoreWrite.setFailureProcessed pid) ∧
      (applyWrites s ws).projects pid = some { p with status := st } ∧
      (applyWrites s ws).failureProcessed pid = true := by
  by_cases hg : p.funding_goal ≤ p.total_raised
  · refine ⟨[CoreWrite.setStatus pid ProjectStatus.Completed,
             CoreWrite.setFailureProcessed pid], [], ProjectStatus.Completed,
      ?_, fun _ => ⟨rfl, rfl⟩, fun h => absurd hg h, rfl, ?_, ?_⟩
    · simp [resolve_outcome, hp, ht, hf, ha, hg]
    · simp [applyWrites, applyWrite, hp]
    · simp [applyWrites, applyWrite]
  · refine ⟨[CoreWrite.setStatus pid ProjectStatus.Failed,
             CoreWrite.setFailureProcessed pid],
      [CoreEvent.projectFailed pid], ProjectStatus.Failed,
      ?_, fun h => absurd h hg, fun _ => ⟨rfl, rfl⟩, rfl, ?_, ?_⟩
    · simp [resolve_outcome, hp, ht, hf, ha, hg]
    · simp [applyWrites, applyWrite, hp]
    · simp [applyWrites, applyWrite]

/-- Witness for C1: the resolver applied to the concrete underfunded
`sampleState` past its deadline. -/
theorem resolve_outcome_commit_witness :
    ∃ ws evs st,
      resolve_outcome sampleState 0 = .ok (ws, evs, st) ∧
      (sampleProject.funding_goal ≤ sampleProject.total_raised →
        st = ProjectStatus.Completed ∧ evs = []) ∧
      (¬ sampleProject.funding_goal ≤ sampleProject.total_raised →
        st = ProjectStatus.Failed ∧ evs = [CoreEvent.projectFailed 0]) ∧
      ws.getLast? = some (CoreWrite.setFailureProcessed 0) ∧
      (applyWrites sampleState ws).projects 0 =
        some { sampleProject with status := st } ∧
      (applyWrites sampleState ws).failureProcessed 0 = true :=
  resolve_outcome_commit sampleState 0 sampleProject rfl (by decide) rfl rfl

/-! ### Inversion and preservation lemmas for serialized runs -/

/-- Inverting a successful `resolve_outcome`: all preconditions held and
the write list is the status write followed by the flag write. -/
theorem resolve_outcome_ok_inv {s : CoreState} {pid : Nat} {ws : List CoreWrite}
    {evs : List CoreEvent} {st : ProjectStatus}
    (h : resolve_outcome s pid = .ok (ws, evs, st)) :
    ∃ p, s.projects pid = some p ∧ p.deadline < s.ledgerTime ∧
      s.failureProcessed pid = false ∧ p.status = ProjectStatus.Active ∧
      ws = [CoreWrite.setStatus pid st, CoreWrite.setFailureProcessed pid] := by
  unfold resolve_outcome at h
  split at h
  next heq => exact absurd h (by simp)
  next p heq =>
    split at h
    next ht =>
      split at h
      next hc =>
        split at h
        next hg =>
          simp only [Except.ok.injEq, Prod.mk.injEq] at h
          obtain ⟨h1, _, h3⟩ := h
          exact ⟨p, heq, ht, hc.1, hc.2, by rw [← h1, ← h3]⟩
        next hg =>
          simp only [Except.ok.injEq, Prod.mk.injEq] at h
          obtain ⟨h1, _, h3⟩ := h
          exact ⟨p, heq, ht, hc.1, hc.2, by rw [← h1, ← h3]⟩
      next hc => exact absurd h (by simp)
    next ht => exact absurd h (by simp)

/-- Inverting a successful committed `resolve_outcome` run. -/
theorem resolveOutcomeRun_ok_inv {s : CoreState} {pid : Nat} {s₁ : CoreState}
    {evs : List CoreEvent} {st : ProjectStatus}
    (h : resolveOutcomeRun s pid = .ok (s₁, evs, st)) :
    ∃ p, s.projects pid = some p ∧ p.deadline < s.ledgerTime ∧
      s.failureProcessed pid = false ∧ p.status = ProjectStatus.Active ∧
      s₁ = applyWrites s
        [CoreWrite.setStatus pid st, CoreWrite.setFailureProcessed pid] := by
  unfold resolveOutcomeRun at h
  cases hr : resolve_outcome s pid with
  | error e => rw [hr] at h; exact absurd h (by simp [Except.map])
  | ok r =>
      obtain ⟨ws, evs', st'⟩ := r
      rw [hr] at h
      simp only [Except.map, Except.ok.injEq, Prod.mk.injEq] at h
      obtain ⟨h1, _, h3⟩ := h
      obtain ⟨p, hp, ht, hf, ha, hws⟩ := resolve_outcome_ok_inv hr
      exact ⟨p, hp, ht, hf, ha, by rw [← h1, hws, h3]⟩

/-- Inverting a successful `refund`: all preconditions held, the amount is
the recorded contribution and the only write sets the refund flag. -/
theorem refund_ok_inv {s : CoreState} {pid c : Nat} {ws : List CoreWrite}
    {evs : List CoreEvent} {a : Int}
    (h : refund s pid c = .ok (ws, evs, a)) :
    ∃ p, s.projects pid = some p ∧ p.status = ProjectStatus.Failed ∧
      s.refundProcessed pid c = false ∧ 0 < s.contributions pid c ∧
      a = s.contributions pid c ∧
      ws = [CoreWrite.setRefundProcessed pid c] := by
  unfold refund at h
  split at h
  next heq => exact absurd h (by simp)
  next p heq =>
    split at h
    next hst =>
      split at h
      next hflag => exact absurd h (by simp)
      next hflag =>
        split at h
        next hpos =>
          simp only [Except.ok.injEq, Prod.mk.injEq] at h
          obtain ⟨h1, _, h3⟩ := h
          exact ⟨p, heq, hst, by simp [hflag], hpos, h3.symm, h1.symm⟩
        next hpos => exact absurd h (by simp)
    next hst => exact absurd h (by simp)

/-- Inverting a successful committed `refund` run. -/
theorem refundRun_ok_inv {s : CoreState} {pid c : Nat} {s₁ : CoreState}
    {evs : List CoreEvent} {a : Int}
    (h : refundRun s pid c = .ok (s₁, evs, a)) :
    ∃ p, s.projects pid = some p ∧ p.status = ProjectStatus.Failed ∧
      s.refundProcessed pid c = false ∧ 0 < s.contributions pid c ∧
      a = s.contributions pid c ∧
      s₁ = applyWrites s [CoreWrite.setRefundProcessed pid c] := by
  unfold refundRun at h
  cases hr : refund s pid c with
  | error e => rw [hr] at h; exact absurd h (by simp [Except.map])
  | ok r =>
      obtain ⟨ws, evs', a'⟩ := r
      rw [hr] at h
      simp only [Except.map, Except.ok.injEq, Prod.mk.injEq] at h
      obtain ⟨h1, _, h3⟩ := h
      obtain ⟨p, hp, hst, hflag, hpos, ha, hws⟩ := refund_ok_inv hr
      exact ⟨p, hp, hst, hflag, hpos, by rw [← h3, ha], by rw [← h1, hws]⟩

/-- No storage write touches the contribution ledger (the core only reads
it, spec §3). -/
theorem applyWrite_contributions (s : CoreState) (w : CoreWrite) :
    (applyWrite s w).contributions = s.contributions := by
  cases w <;> rfl

/-- `applyWrites` never touches the contribution ledger. -/
theorem applyWrites_contributions (s : CoreState) (ws : List CoreWrite) :
    (applyWrites s ws).contributions = s.contributions := by
  induction ws generalizing s with
  | nil => rfl
  | cons w ws ih =>
      show (applyWrites (applyWrite s w) ws).contributions = s.contributions
      rw [ih, applyWrite_contributions]

/-- No storage write touches the ledger clock. -/
theorem applyWrite_ledgerTime (s : CoreState) (w : CoreWrite) :
    (applyWrite s w).ledgerTime = s.ledgerTime := by
  cases w <;> rfl

/-- `applyWrites` never touches the ledger clock. -/
theorem applyWrites_ledgerTime (s : CoreState) (ws : List CoreWrite) :
    (applyWrites s ws).ledgerTime = s.ledgerTime := by
  induction ws generalizing s with
  | nil => rfl
  | cons w ws ih =>
      show (applyWrites (applyWrite s w) ws).ledgerTime = s.ledgerTime
      rw [ih, applyWrite_ledgerTime]

/-- A write can change a project's status but nothing else: existence and
the funding fields (`deadline`, `funding_goal`, `total_raised`) survive. -/
theorem applyWrite_projects_fields (s : CoreState) (w : CoreWrite) (pid : Nat)
    (p : Project) (hp : s.projects pid = some p) :
    ∃ q, (applyWrite s w).projects pid = some q ∧ q.deadline = p.deadline ∧
      q.funding_goal = p.funding_goal ∧ q.total_raised = p.total_raised := by
  cases w with
  | setStatus pid' st =>
      by_cases h : pid = pid'
      · subst h
        exact ⟨{ p with status := st }, by simp [applyWrite, hp], rfl, rfl, rfl⟩
      · exact ⟨p, by simp [applyWrite, h, hp], rfl, rfl, rfl⟩
  | setFailureProcessed pid' => exact ⟨p, hp, rfl, rfl, rfl⟩
  | setRefundProcessed pid' c => exact ⟨p, hp, rfl, rfl, rfl⟩

/-- `applyWrites` preserves project existence and the funding fields. -/
theorem applyWrites_projects_fields (s : CoreState) (ws : List CoreWrite)
    (pid : Nat) (p : Project) (hp : s.projects pid = some p) :
    ∃ q, (applyWrites s ws).projects pid = some q ∧ q.deadline = p.deadline ∧
      q.funding_goal = p.funding_goal ∧ q.total_raised = p.total_raised := by
  induction ws generalizing s p with
  | nil => exact ⟨p, hp, rfl, rfl, rfl⟩
  | cons w ws ih =>
      obtain ⟨q, hq, h1, h2, h3⟩ := applyWrite_projects_fields s w pid p hp
      obtain ⟨q', hq', h1', h2', h3'⟩ := ih (applyWrite s w) q hq
      exact ⟨q', hq', h1'.trans h1, h2'.trans h2, h3'.trans h3⟩

/-- The `ProjectFailureProcessed` flag is never cleared by a write. -/
theorem applyWrite_failureProcessed_mono (s : CoreState) (w : CoreWrite)
    (pid : Nat) (h : s.failureProcessed pid = true) :
    (applyWrite s w).failureProcessed pid = true := by
  cases w with
  | setStatus pid' st => exact h
  | setFailureProcessed pid' =>
      show (if pid = pid' then true else s.failureProcessed pid) = true
      split <;> simp [h]
  | setRefundProcessed pid' c => exact h

/-- The `ProjectFailureProcessed` flag survives any write list. -/
theorem applyWrites_failureProcessed_mono (s : CoreState) (ws : List CoreWrite)
    (pid : Nat) (h : s.failureProcessed pid = true) :
    (applyWrites s ws).failureProcessed pid = true := by
  induction ws generalizing s with
  | nil => exact h
  | cons w ws ih =>
      exact ih (applyWrite s w) (applyWrite_failureProcessed_mono s w pid h)

/-- The `RefundProcessed` flag is never cleared by a write. -/
theorem applyWrite_refundProcessed_mono (s : CoreState) (w : CoreWrite)
    (pid c : Nat) (h : s.refundProcessed pid c = true) :
    (applyWrite s w).refundProcessed pid c = true := by
  cases w with
  | setStatus pid' st => exact h
  | setFailureProcessed pid' => exact h
  | setRefundProcessed pid' c' =>
      show (if pid = pid' ∧ c = c' then true else s.refundProcessed pid c) = true
      split <;> simp [h]

/-- The `RefundProcessed` flag survives any write list. -/
theorem applyWrites_refundProcessed_mono (s : CoreState) (ws : List CoreWrite)
    (pid c : Nat) (h : s.refundProcessed pid c = true) :
    (applyWrites s ws).refundProcessed pid c = true := by
  induction ws generalizing s with
  | nil => exact h
  | cons w ws ih =>
      exact ih (applyWrite s w) (applyWrite_refundProcessed_mono s w pid c h)

/-- Every transaction commits through `applyWrites`: either the state is
unchanged (failed call, for `tick` only the clock moves) or it is the fold
of the call's write list. -/
theorem applyOp_cases (s : CoreState) (op : CoreOp) :
    (∃ ws, applyOp s op = applyWrites s ws) ∨
    (∃ dt, applyOp s op = { s with ledgerTime := s.ledgerTime + dt }) := by
  cases op with
  | resolve pid =>
      left
      show (∃ ws, (match resolveOutcomeRun s pid with
        | .ok r => r.1 | .error _ => s) = applyWrites s ws)
      cases hr : resolveOutcomeRun s pid with
      | error e => exact ⟨[], rfl⟩
      | ok r =>
          obtain ⟨p, _, _, _, _, hs₁⟩ := @resolveOutcomeRun_ok_inv s pid r.1
            r.2.1 r.2.2 (by rw [hr])
          exact ⟨_, hs₁⟩
  | refundCall pid c =>
      left
      show (∃ ws, (match refundRun s pid c with
        | .ok r => r.1 | .error _ => s) = applyWrites s ws)
      cases hr : refundRun s pid c with
      | error e => exact ⟨[], rfl⟩
      | ok r =>
          obtain ⟨p, _, _, _, _, _, hs₁⟩ := @refundRun_ok_inv s pid c r.1
            r.2.1 r.2.2 (by rw [hr])
          exact ⟨_, hs₁⟩
  | tick dt => exact Or.inr ⟨dt, rfl⟩

/-- Transactions never touch the contribution ledger. -/
theorem applyOp_contributions (s : CoreState) (op : CoreOp) :
    (applyOp s op).contributions = s.contributions := by
  rcases applyOp_cases s op with ⟨ws, h⟩ | ⟨dt, h⟩
  · rw [h, applyWrites_contributions]
  · rw [h]

/-- Ledger time never decreases across a transaction. -/
theorem applyOp_ledgerTime_mono (s : CoreState) (op : CoreOp) :
    s.ledgerTime ≤ (applyOp s op).ledgerTime := by
  rcases applyOp_cases s op with ⟨ws, h⟩ | ⟨dt, h⟩
  · rw [h, applyWrites_ledgerTime]
  · rw [h]; exact Nat.le_add_right _ _

/-- Project existence and the funding fields survive any transaction. -/
theorem applyOp_projects_fields (s : CoreState) (op : CoreOp) (pid : Nat)
    (p : Project) (hp : s.projects pid = some p) :
    ∃ q, (applyOp s op).projects pid = some q ∧ q.deadline = p.deadline ∧
      q.funding_goal = p.funding_goal ∧ q.total_raised = p.total_raised := by
  rcases applyOp_cases s op with ⟨ws, h⟩ | ⟨dt, h⟩
  · rw [h]; exact applyWrites_projects_fields s ws pid p hp
  · rw [h]; exact ⟨p, hp, rfl, rfl, rfl⟩

/-- The `ProjectFailureProcessed` flag survives any transaction. -/
theorem applyOp_failureProcessed_mono (s : CoreState) (op : CoreOp) (pid : Nat)
    (h : s.failureProcessed pid = true) :
    (applyOp s op).failureProcessed pid = true := by
  rcases applyOp_cases s op with ⟨ws, hw⟩ | ⟨dt, hw⟩
  · rw [hw]; exact applyWrites_failureProcessed_mono s ws pid h
  · rw [hw]; exact h

/-- The `RefundProcessed` flag survives any transaction. -/
theorem applyOp_refundProcessed_mono (s : CoreState) (op : CoreOp) (pid c : Nat)
    (h : s.refundProcessed pid c = true) :
    (applyOp s op).refundProcessed pid c = true := by
  rcases applyOp_cases s op with ⟨ws, hw⟩ | ⟨dt, hw⟩
  · rw [hw]; exact applyWrites_refundProcessed_mono s ws pid c h
  · rw [hw]; exact h

/-- A Failed project record is never changed by any transaction: `refund`
writes no project field and `resolve_outcome` refuses non-Active projects. -/
theorem applyOp_projects_failed (s : CoreState) (op : CoreOp) (pid : Nat)
    (p : Project) (hp : s.projects pid = some p)
    (hst : p.status = ProjectStatus.Failed) :
    (applyOp s op).projects pid = some p := by
  cases op with
  | tick dt => exact hp
  | refundCall pid' c =>
      show (match refundRun s pid' c with
        | .ok r => r.1 | .error _ => s).projects pid = some p
      cases hr : refundRun s pid' c with
      | error e => exact hp
      | ok r =>
          obtain ⟨p', _, _, _, _, _, hs₁⟩ :=
            @refundRun_ok_inv s pid' c r.1 r.2.1 r.2.2 (by rw [hr])
          show r.1.projects pid = some p
          rw [hs₁]
          simpa [applyWrites, applyWrite] using hp
  | resolve pid' =>
      show (match resolveOutcomeRun s pid' with
        | .ok r => r.1 | .error _ => s).projects pid = some p
      cases hr : resolveOutcomeRun s pid' with
      | error e => exact hp
      | ok r =>
          obtain ⟨p', hp', ht', hf', ha', hs₁⟩ :=
            @resolveOutcomeRun_ok_inv s pid' r.1 r.2.1 r.2.2
              (by rw [hr])
          have hne : pid ≠ pid' := by
            intro he
            subst he
            have hpp : p = p' := Option.some.inj (hp.symm.trans hp')
            rw [← hpp, hst] at ha'
            exact absurd ha' (by decide)
          show r.1.projects pid = some p
          rw [hs₁]
          simp [applyWrites, applyWrite, hne, hp]

/-! ### At-most-once theorems (claims C2, C3) -/

/-- Helper for C2: once the failure flag is set on an existing project whose
deadline has passed, every serialized continuation keeps `resolve_outcome`
failing with `InvalidProjectStatus`. -/
theorem resolve_blocked_forever (pid d : Nat) (ops : List CoreOp) :
    ∀ t : CoreState, (∃ q, t.projects pid = some q ∧ q.deadline = d) →
      t.failureProcessed pid = true → d < t.ledgerTime →
      resolve_outcome (runOps t ops) pid = .error CoreError.InvalidProjectStatus := by
  induction ops with
  | nil =>
      rintro t ⟨q, hq, hd⟩ h2 h3
      exact resolve_outcome_rejected q hq (by rw [hd]; exact h3) (Or.inl h2)
  | cons op ops ih =>
      rintro t ⟨q, hq, hd⟩ h2 h3
      obtain ⟨q', hq', hd', _, _⟩ := applyOp_projects_fields t op pid q hq
      exact ih (applyOp t op) ⟨q', hq', hd'.trans hd⟩
        (applyOp_failureProcessed_mono t op pid h2)
        (lt_of_lt_of_le h3 (applyOp_ledgerTime_mono t op))

/-- C2: `resolve_outcome` succeeds at most once per project: after one
successful run, every later call on the same project — whatever serialized
calls and time passage come in between, in any order — fails with
`InvalidProjectStatus`. -/
theorem resolve_outcome_at_most_once (s : CoreState) (pid : Nat)
    (s₁ : CoreState) (evs : List CoreEvent) (st : ProjectStatus)
    (h : resolveOutcomeRun s pid = .ok (s₁, evs, st)) (ops : List CoreOp) :
    resolve_outcome (runOps s₁ ops) pid = .error CoreError.InvalidProjectStatus := by
  obtain ⟨p, hp, ht, hf, ha, hs₁⟩ := resolveOutcomeRun_ok_inv h
  have hq : ∃ q, s₁.projects pid = some q ∧ q.deadline = p.deadline := by
    subst hs₁
    obtain ⟨q, hq, h1, _, _⟩ := applyWrites_projects_fields s _ pid p hp
    exact ⟨q, hq, h1⟩
  have h2 : s₁.failureProcessed pid = true := by
    subst hs₁
    simp [applyWrites, applyWrite]
  have h3 : p.deadline < s₁.ledgerTime := by
    subst hs₁
    rw [applyWrites_ledgerTime]
    exact ht
  exact resolve_blocked_forever pid p.deadline ops s₁ hq h2 h3

/-- Witness for C2: the concrete underfunded project is resolved once;
after more ledger time passes, a second resolve fails with
`InvalidProjectStatus`. -/
theorem resolve_outcome_at_most_once_witness :
    resolve_outcome
      (runOps (applyWrites sampleState
        [CoreWrite.setStatus 0 ProjectStatus.Failed,
         CoreWrite.setFailureProcessed 0]) [CoreOp.tick 5]) 0 =
      .error CoreError.InvalidProjectStatus :=
  resolve_outcome_at_most_once sampleState 0
    (applyWrites sampleState
      [CoreWrite.setStatus 0 ProjectStatus.Failed,
       CoreWrite.setFailureProcessed 0])
    [CoreEvent.projectFailed 0] ProjectStatus.Failed rfl [CoreOp.tick 5]

/-- Helper for C3: once a project is Failed and a contributor's refund flag
is set, every serialized continuation keeps `refund` failing with
`InvalidInput`. -/
theorem refund_blocked_forever (pid c : Nat) (p : Project)
    (hst : p.status = ProjectStatus.Failed) (ops : List CoreOp) :
    ∀ t : CoreState, t.projects pid = some p →
      t.refundProcessed pid c = true →
      refund (runOps t ops) pid c = .error CoreError.InvalidInput := by
  induction ops with
  | nil => intro t hp hflag; exact refund_rejected_flag p hp hst hflag
  | cons op ops ih =>
      intro t hp hflag
      exact ih (applyOp t op) (applyOp_projects_failed t op pid p hp hst)
        (applyOp_refundProcessed_mono t op pid c hflag)

/-- C3: `refund` succeeds at most once per `(project, contributor)` pair:
after one successful refund run, every later refund call for the same
pair — whatever serialized calls come in between — fails with
`InvalidInput`. -/
theorem refund_at_most_once (s : CoreState) (pid c : Nat) (s₁ : CoreState)
    (evs : List CoreEvent) (a : Int)
    (h : refundRun s pid c = .ok (s₁, evs, a)) (ops : List CoreOp) :
    refund (runOps s₁ ops) pid c = .error CoreError.InvalidInput := by
  obtain ⟨p, hp, hst, hflag, hpos, ha, hs₁⟩ := refundRun_ok_inv h
  have hp₁ : s₁.projects pid = some p := by
    subst hs₁
    simpa [applyWrites, applyWrite] using hp
  have hflag₁ : s₁.refundProcessed pid c = true := by
    subst hs₁
    simp [applyWrites, applyWrite]
  exact refund_blocked_forever pid c p hst ops s₁ hp₁ hflag₁

/-- Witness for C3: contributor 1 of the concrete failed project is
refunded once; after more ledger time passes, a second refund fails with
`InvalidInput`. -/
theorem refund_at_most_once_witness :
    refund
      (runOps (applyWrites failedState [CoreWrite.setRefundProcessed 0 1])
        [CoreOp.tick 3]) 0 1 = .error CoreError.InvalidInput :=
  refund_at_most_once failedState 0 1
    (applyWrites failedState [CoreWrite.setRefundProcessed 0 1])
    [CoreEvent.refundIssued 0 1 10] 10 rfl [CoreOp.tick 3]

/-! ### Refund totals never exceed `total_raised` (claim C4) -/

/-- `resolve_outcome` never writes a `RefundProcessed` flag. -/
theorem applyOp_refundProcessed_resolve (s : CoreState) (pid' : Nat) :
    (applyOp s (CoreOp.resolve pid')).refundProcessed = s.refundProcessed := by
  show (match resolveOutcomeRun s pid' with
    | .ok r => r.1 | .error _ => s).refundProcessed = s.refundProcessed
  cases hr : resolveOutcomeRun s pid' with
  | error e => rfl
  | ok r =>
      obtain ⟨p', _, _, _, _, hs₁⟩ :=
        @resolveOutcomeRun_ok_inv s pid' r.1 r.2.1 r.2.2
          (by rw [hr])
      show r.1.refundProcessed = s.refundProcessed
      rw [hs₁]
      rfl

/-- A `refund` transaction either aborts or commits its write list. -/
theorem applyOp_refundCall_eq (s : CoreState) (pid' c : Nat) :
    applyOp s (CoreOp.refundCall pid' c) =
      match refund s pid' c with
      | .ok r => applyWrites s r.1
      | .error _ => s := by
  show (match refundRun s pid' c with
    | .ok r => r.1 | .error _ => s) = _
  unfold refundRun
  cases refund s pid' c <;> rfl

/-- Two states that agree on project `pid`'s contribution row and refund
flags have the same unrefunded-contribution sum. -/
theorem sum_unrefunded_congr (pid : Nat) (S : Finset Nat) (s t : CoreState)
    (hc : ∀ x, t.contributions pid x = s.contributions pid x)
    (hrp : ∀ x, t.refundProcessed pid x = s.refundProcessed pid x) :
    ∑ c in S.filter (fun c => t.refundProcessed pid c = false),
        t.contributions pid c =
      ∑ c in S.filter (fun c => s.refundProcessed pid c = false),
        s.contributions pid c := by
  have hf : S.filter (fun c => t.refundProcessed pid c = false) =
      S.filter (fun c => s.refundProcessed pid c = false) := by
    apply Finset.filter_congr
    intro x _
    rw [hrp x]
  rw [hf]
  exact Finset.sum_congr rfl (fun x _ => hc x)

/-- Helper for C4: over any serialized run, the total paid out for project
`pid` is bounded by the contributions of its not-yet-refunded supporters. -/
theorem totalRefunded_le_unrefunded (pid : Nat) (S : Finset Nat)
    (ops : List CoreOp) :
    ∀ s : CoreState,
      (∀ c, c ∉ S → s.contributions pid c = 0) →
      (∀ c, 0 ≤ s.contributions pid c) →
      totalRefunded s pid ops ≤
        ∑ c in S.filter (fun c => s.refundProcessed pid c = false),
          s.contributions pid c := by
  induction ops with
  | nil =>
      intro s _ hnn
      simpa [totalRefunded] using
        Finset.sum_nonneg (fun c _ => hnn c)
  | cons op ops ih =>
      intro s hsupp hnn
      have hsupp' : ∀ c, c ∉ S → (applyOp s op).contributions pid c = 0 := by
        intro c hc
        rw [applyOp_contributions]
        exact hsupp c hc
      have hnn' : ∀ c, 0 ≤ (applyOp s op).contributions pid c := by
        intro c
        rw [applyOp_contributions]
        exact hnn c
      have hb := ih (applyOp s op) hsupp' hnn'
      show paidAmount s pid op + totalRefunded (applyOp s op) pid ops ≤ _
      cases op with
      | tick dt =>
          rw [sum_unrefunded_congr pid S s (applyOp s (CoreOp.tick dt))
            (fun _ => rfl) (fun _ => rfl)] at hb
          simpa [paidAmount] using hb
      | resolve pid' =>
          rw [sum_unrefunded_congr pid S s (applyOp s (CoreOp.resolve pid'))
            (fun x => by rw [applyOp_contributions])
            (fun x => by rw [applyOp_refundProcessed_resolve])] at hb
          simpa [paidAmount] using hb
      | refundCall pid' c =>
          cases hr : refund s pid' c with
          | error e =>
              have hstate : applyOp s (CoreOp.refundCall pid' c) = s := by
                rw [applyOp_refundCall_eq, hr]
              have hpaid : paidAmount s pid (CoreOp.refundCall pid' c) = 0 := by
                show (if pid' = pid then
                  (match refund s pid' c with
                    | Except.ok r => r.2.2
                    | Except.error _ => 0) else 0 : Int) = 0
                rw [hr]
                split <;> rfl
              rw [hstate] at hb
              rw [hpaid, zero_add, hstate]
              exact hb
          | ok r =>
              obtain ⟨ws, evs, a⟩ := r
              obtain ⟨p, hp, hst, hflag, hpos, haeq, hws⟩ := refund_ok_inv hr
              have hstate : applyOp s (CoreOp.refundCall pid' c) =
                  applyWrites s [CoreWrite.setRefundProcessed pid' c] := by
                rw [applyOp_refundCall_eq, hr, hws]
              by_cases hpp : pid' = pid
              · subst hpp
                have hpaid : paidAmount s pid' (CoreOp.refundCall pid' c) = a := by
                  show (if pid' = pid' then
                    (match refund s pid' c with
                      | Except.ok r => r.2.2
                      | Except.error _ => 0) else 0 : Int) = a
                  rw [if_pos rfl, hr]
                have hT : (applyWrites s
                    [CoreWrite.setRefundProcessed pid' c]).contributions =
                    s.contributions := applyWrites_contributions s _
                have hTr : ∀ x, (applyWrites s
                    [CoreWrite.setRefundProcessed pid' c]).refundProcessed pid' x =
                    if x = c then true else s.refundProcessed pid' x := by
                  intro x
                  show (if pid' = pid' ∧ x = c then true
                    else s.refundProcessed pid' x) = _
                  simp
                have hfilter : S.filter (fun x =>
                    (applyWrites s [CoreWrite.setRefundProcessed pid' c]).refundProcessed
                      pid' x = false) =
                    (S.filter (fun x => s.refundProcessed pid' x = false)).erase c := by
                  ext x
                  rw [Finset.mem_erase, Finset.mem_filter, Finset.mem_filter, hTr x]
                  by_cases hxc : x = c
                  · subst hxc
                    simp
                  · simp [hxc]
                have hcS : c ∈ S.filter (fun x => s.refundProcessed pid' x = false) := by
                  rw [Finset.mem_filter]
                  refine ⟨?_, hflag⟩
                  by_contra hc
                  rw [hsupp c hc] at hpos
                  exact lt_irrefl 0 hpos
                rw [hstate] at hb
                rw [hfilter] at hb
                rw [hT] at hb
                have hsum := Finset.sum_erase_add
                  (S.filter (fun x => s.refundProcessed pid' x = false))
                  (fun x => s.contributions pid' x) hcS
                rw [hstate, hpaid, haeq]
                linarith [hb, hsum]
              · have hpp' : pid ≠ pid' := fun h => hpp h.symm
                have hpaid : paidAmount s pid (CoreOp.refundCall pid' c) = 0 := by
                  show (if pid' = pid then
                    (match refund s pid' c with
                      | Except.ok r => r.2.2
                      | Except.error _ => 0) else 0 : Int) = 0
                  rw [if_neg hpp]
                rw [sum_unrefunded_congr pid S s
                  (applyOp s (CoreOp.refundCall pid' c))
                  (fun x => by rw [applyOp_contributions])
                  (fun x => by
                    rw [hstate]
                    show (if pid = pid' ∧ x = c then true
                      else s.refundProcessed pid x) = s.refundProcessed pid x
                    simp [hpp'])] at hb
                rw [hpaid, zero_add]
                exact hb

/-- C4: over every serialized sequence of core operations, the sum of the
amounts returned by successful `refund` calls for a project never exceeds
its `total_raised`, given the external intake invariant that the recorded
per-contributor amounts (non-negative, supported on `S`) sum to
`total_raised`. -/
theorem refunded_le_total_raised (s : CoreState) (pid : Nat) (p : Project)
    (S : Finset Nat)
    (hp : s.projects pid = some p)
    (hsupp : ∀ c, c ∉ S → s.contributions pid c = 0)
    (hnn : ∀ c, 0 ≤ s.contributions pid c)
    (hsum : ∑ c in S, s.contributions pid c = p.total_raised)
    (ops : List CoreOp) :
    totalRefunded s pid ops ≤ p.total_raised := by
  have h1 := totalRefunded_le_unrefunded pid S ops s hsupp hnn
  have h2 : ∑ c in S.filter (fun c => s.refundProcessed pid c = false),
      s.contributions pid c ≤ ∑ c in S, s.contributions pid c :=
    Finset.sum_le_sum_of_subset_of_nonneg (Finset.filter_subset _ _)
      (fun c _ _ => hnn c)
  rw [← hsum]
  exact h1.trans h2

/-- A run that resolves the sample project then refunds contributor 1,
contributor 2, and contributor 1 again. -/
def sampleRun : List CoreOp :=
  [CoreOp.resolve 0, CoreOp.refundCall 0 1, CoreOp.refundCall 0 2,
   CoreOp.refundCall 0 1]

/-- Witness for C4: the concrete sample run pays out no more than the
sample project's `total_raised`. -/
theorem refunded_le_total_raised_witness :
    totalRefunded sampleState 0 sampleRun ≤ sampleProject.total_raised :=
  refunded_le_total_raised sampleState 0 sampleProject {1, 2} rfl
    (by
      intro c hc
      simp only [Finset.mem_insert, Finset.mem_singleton] at hc
      push_neg at hc
      simp [sampleState, hc.1, hc.2])
    (by
      intro c
      simp only [sampleState]
      split_ifs <;> norm_num)
    (by decide)
    sampleRun

/-! ### Refunds for distinct contributors commute (claim C7) -/

/-- Setting one contributor's refund flag (the only storage effect of a
successful `refund`). -/
def setFlag (s : CoreState) (pid c : Nat) : CoreState :=
  { s with refundProcessed := fun i a =>
      if i = pid ∧ a = c then true else s.refundProcessed i a }

/-- Setting one contributor's flag leaves every other contributor's flag. -/
theorem setFlag_flag_ne (s : CoreState) (pid c c' : Nat) (h : c' ≠ c) :
    (setFlag s pid c).refundProcessed pid c' = s.refundProcessed pid c' := by
  show (if pid = pid ∧ c' = c then true else s.refundProcessed pid c') = _
  simp [h]

/-- Flag writes for two contributors commute. -/
theorem setFlag_comm (s : CoreState) (pid c₁ c₂ : Nat) :
    setFlag (setFlag s pid c₁) pid c₂ = setFlag (setFlag s pid c₂) pid c₁ := by
  apply CoreState.ext <;> try rfl
  funext i a
  show (if i = pid ∧ a = c₂ then true else if i = pid ∧ a = c₁ then true
      else s.refundProcessed i a) =
    (if i = pid ∧ a = c₁ then true else if i = pid ∧ a = c₂ then true
      else s.refundProcessed i a)
  split_ifs <;> rfl

/-- Characterization of one committed `refund` transaction on a Failed
project: it either sets the contributor's flag (when the flag was clear and
the recorded contribution positive) or leaves the state unchanged. -/
theorem applyOp_refundCall_char (s : CoreState) (pid c : Nat) (p : Project)
    (hp : s.projects pid = some p) (hst : p.status = ProjectStatus.Failed) :
    applyOp s (CoreOp.refundCall pid c) =
      if s.refundProcessed pid c = false ∧ 0 < s.contributions pid c then
        setFlag s pid c
      else s := by
  by_cases hflag : s.refundProcessed pid c = false
  · by_cases hpos : 0 < s.contributions pid c
    · have hr : refund s pid c =
          .ok ([CoreWrite.setRefundProcessed pid c],
               [CoreEvent.refundIssued pid c (s.contributions pid c)],
               s.contributions pid c) := by
        simp [refund, hp, hst, hflag, hpos]
      rw [applyOp_refundCall_eq, hr, if_pos ⟨hflag, hpos⟩]
      rfl
    · have hr : refund s pid c = .error CoreError.InvalidInput := by
        simp [refund, hp, hst, hflag, hpos]
      rw [applyOp_refundCall_eq, hr, if_neg (fun hc => hpos hc.2)]
  · have hft : s.refundProcessed pid c = true := by
      simpa using hflag
    have hr : refund s pid c = .error CoreError.InvalidInput :=
      refund_rejected_flag p hp hst hft
    rw [applyOp_refundCall_eq, hr, if_neg (fun hc => hflag hc.1)]

/-- C7: for a failed project, refunds for two distinct contributors commute:
either serialized order of the two transactions (each applied atomically,
failing calls leaving the state untouched) yields the same final storage
state. -/
theorem refund_commutes (s : CoreState) (pid : Nat) (p : Project)
    (hp : s.projects pid = some p) (hst : p.status = ProjectStatus.Failed)
    (c₁ c₂ : Nat) (hne : c₁ ≠ c₂) :
    applyOp (applyOp s (CoreOp.refundCall pid c₁)) (CoreOp.refundCall pid c₂) =
      applyOp (applyOp s (CoreOp.refundCall pid c₂)) (CoreOp.refundCall pid c₁) := by
  rw [applyOp_refundCall_char s pid c₁ p hp hst,
      applyOp_refundCall_char s pid c₂ p hp hst]
  by_cases hA : s.refundProcessed pid c₁ = false ∧ 0 < s.contributions pid c₁
  · by_cases hB : s.refundProcessed pid c₂ = false ∧ 0 < s.contributions pid c₂
    · rw [if_pos hA, if_pos hB,
          applyOp_refundCall_char (setFlag s pid c₁) pid c₂ p hp hst,
          applyOp_refundCall_char (setFlag s pid c₂) pid c₁ p hp hst,
          if_pos ⟨(setFlag_flag_ne s pid c₁ c₂ (Ne.symm hne)).trans hB.1, hB.2⟩,
          if_pos ⟨(setFlag_flag_ne s pid c₂ c₁ hne).trans hA.1, hA.2⟩]
      exact setFlag_comm s pid c₁ c₂
    · rw [if_pos hA, if_neg hB,
          applyOp_refundCall_char (setFlag s pid c₁) pid c₂ p hp hst,
          applyOp_refundCall_char s pid c₁ p hp hst,
          if_neg (fun hc => hB
            ⟨(setFlag_flag_ne s pid c₁ c₂ (Ne.symm hne)).symm.trans hc.1, hc.2⟩),
          if_pos hA]
  · by_cases hB : s.refundProcessed pid c₂ = false ∧ 0 < s.contributions pid c₂
    · rw [if_neg hA, if_pos hB,
          applyOp_refundCall_char s pid c₂ p hp hst,
          applyOp_refundCall_char (setFlag s pid c₂) pid c₁ p hp hst,
          if_pos hB,
          if_neg (fun hc => hA
            ⟨(setFlag_flag_ne s pid c₂ c₁ hne).symm.trans hc.1, hc.2⟩)]
    · rw [if_neg hA, if_neg hB,
          applyOp_refundCall_char s pid c₂ p hp hst,
          applyOp_refundCall_char s pid c₁ p hp hst,
          if_neg hA, if_neg hB]

/-- Witness for C7: both refund orders for contributors 1 and 2 of the
concrete failed project agree. -/
theorem refund_commutes_witness :
    applyOp (applyOp failedState (CoreOp.refundCall 0 1)) (CoreOp.refundCall 0 2) =
      applyOp (applyOp failedState (CoreOp.refundCall 0 2)) (CoreOp.refundCall 0 1) :=
  refund_commutes failedState 0 failedProject rfl rfl 1 2 (by decide)

/-! ## Trust-score calculator
(backend `trust-score.calculator.ts`, `calculateTrustScore`) -/

/-- JavaScript `Math.round`: round half toward positive infinity,
`⌊x + 1/2⌋`. -/
def roundJS (q : ℚ) : ℤ := ⌊q + 1 / 2⌋

namespace TrustScore

/-- Milestone status values used by the calculator. -/
inductive MilestoneStatus
  | APPROVED
  | REJECTED
  | PENDING
deriving DecidableEq, Repr

/-- The milestone fields the calculator selects: `status`, `createdAt`,
`completionDate` (a nullable timestamp, timestamps as rationals). -/
structure Milestone where
  status : MilestoneStatus
  createdAt : ℚ
  completionDate : Option ℚ
deriving DecidableEq, Repr

/-- Project status values relevant to the calculator. -/
inductive DbProjectStatus
  | COMPLETED
  | ACTIVE
  | FAILED
deriving DecidableEq, Repr

/-- The project fields the calculator reads: `status` (for the COMPLETED
count), `goal` and `currentFunds`. -/
structure DbProject where
  status : DbProjectStatus
  goal : ℚ
  currentFunds : ℚ
deriving DecidableEq, Repr

/-- A milestone counted as completed on time:
`m.status === 'APPROVED' && m.completionDate && m.completionDate <= m.createdAt`. -/
def milestoneOnTime (m : Milestone) : Bool :=
  decide (m.status = MilestoneStatus.APPROVED) &&
    (match m.completionDate with
     | some d => decide (d ≤ m.createdAt)
     | none => false)

/-- `calculateTrustScore` over the creator's project and milestone records:
base 500, +100 per COMPLETED project, +50 per on-time approved milestone,
−75 per REJECTED milestone, plus `round((totalDistributed / totalRaised) * 200)`
when `totalRaised > 0`, the result clamped into [0, 1000].  (As in the
source, `totalRaised` sums the projects' `goal` fields and
`totalDistributed` their `currentFunds` fields.) -/
def calculateTrustScore (projects : List DbProject)
    (milestones : List Milestone) : ℤ :=
  let successfulProjects : ℤ :=
    (projects.filter (fun p => decide (p.status = DbProjectStatus.COMPLETED))).length
  let completedOnTime : ℤ := (milestones.filter milestoneOnTime).length
  let failedMilestones : ℤ :=
    (milestones.filter (fun m => decide (m.status = MilestoneStatus.REJECTED))).length
  let totalRaised : ℚ := (projects.map (fun p => p.goal)).sum
  let totalDistributed : ℚ := (projects.map (fun p => p.currentFunds)).sum
  let score : ℤ := 500 + successfulProjects * 100 + completedOnTime * 50 -
    failedMilestones * 75 +
    (if 0 < totalRaised then roundJS (totalDistributed / totalRaised * 200) else 0)
  max 0 (min 1000 score)

/-- C8: for every set of project and milestone records, the trust score is
an integer between 0 and 1000 inclusive — the raw score is clamped into
this range before being returned. -/
theorem calculateTrustScore_range (projects : List DbProject)
    (milestones : List Milestone) :
    0 ≤ calculateTrustScore projects milestones ∧
      calculateTrustScore projects milestones ≤ 1000 := by
  unfold calculateTrustScore
  exact ⟨le_max_left 0 _, max_le (by norm_num) (min_le_left _ _)⟩

end TrustScore

/-! ## Risk engine success predictor
(frontend `risk-engine.ts`, `predictSuccessProbability`) -/

namespace RiskEngine

/-- The 22-component feature vector of the risk engine.  The field written
`daysRemainingFrac` here embeds the source field for the remaining-days
fraction. -/
structure FeatureVector where
  fundingCompletionRate : ℚ
  fundingVelocityNorm : ℚ
  daysRemainingFrac : ℚ
  whaleConcentration : ℚ
  teamStrength : ℚ
  teamExperience : ℚ
  prevSuccessBoost : ℚ
  communityEngagement : ℚ
  sentimentNorm : ℚ
  githubActivity : ℚ
  socialReach : ℚ
  contractSecurity : ℚ
  auditSafety : ℚ
  techRobustness : ℚ
  projectQuality : ℚ
  roadmapScore : ℚ
  legalRisk : ℚ
  liquidityRisk : ℚ
  categoryRisk : ℚ
  earlyMomentum : ℚ
  whitepaperQuality : ℚ
  advisoryStrength : ℚ

/-- `clamp(v) = Math.min(1, Math.max(0, v))`. -/
def clamp (v : ℚ) : ℚ := min 1 (max 0 v)

theorem clamp_nonneg (v : ℚ) : 0 ≤ clamp v :=
  le_min (by norm_num) (le_max_left 0 v)

theorem clamp_le_one (v : ℚ) : clamp v ≤ 1 := min_le_left _ _

/-- A GBDT decision-tree node: a numeric leaf, or a split on a feature
against a threshold. -/
inductive TreeNode
  | leaf (v : ℚ)
  | node (f : FeatureVector → ℚ) (t : ℚ) (l r : TreeNode)

/-- `evalTree`: descend left when the feature value is `≤` the threshold. -/
def evalTree (fv : FeatureVector) : TreeNode → ℚ
  | .leaf v => v
  | .node f t l r => if f fv ≤ t then evalTree fv l else evalTree fv r

/-- The five hard-coded GBDT trees of the source. -/
def GBDT_TREES : List TreeNode := [
  .node (fun fv => fv.fundingCompletionRate) 0.5
    (.node (fun fv => fv.earlyMomentum) 0.3 (.leaf (-0.12)) (.leaf 0.04))
    (.node (fun fv => fv.fundingVelocityNorm) 0.6 (.leaf 0.08) (.leaf 0.18)),
  .node (fun fv => fv.teamStrength) 0.5
    (.node (fun fv => fv.prevSuccessBoost) 0.5 (.leaf (-0.10)) (.leaf 0.02))
    (.node (fun fv => fv.advisoryStrength) 0.4 (.leaf 0.06) (.leaf 0.14)),
  .node (fun fv => fv.contractSecurity) 0.5
    (.node (fun fv => fv.auditSafety) 0.3 (.leaf (-0.15)) (.leaf (-0.03)))
    (.node (fun fv => fv.techRobustness) 0.6 (.leaf 0.05) (.leaf 0.12)),
  .node (fun fv => fv.sentimentNorm) 0.45
    (.node (fun fv => fv.communityEngagement) 0.3 (.leaf (-0.08)) (.leaf (-0.02)))
    (.node (fun fv => fv.socialReach) 0.5 (.leaf 0.04) (.leaf 0.10)),
  .node (fun fv => fv.legalRisk) 0.5
    (.node (fun fv => fv.liquidityRisk) 0.6 (.leaf 0.06) (.leaf (-0.02)))
    (.node (fun fv => fv.whaleConcentration) 0.4 (.leaf (-0.04)) (.leaf (-0.13)))]

/-- The logistic-regression logit: `-0.5` plus the weighted feature sum,
with the source's `LR_WEIGHTS`. -/
def lrLogit (fv : FeatureVector) : ℚ :=
  -0.5 + (0.18 * fv.fundingCompletionRate + 0.12 * fv.fundingVelocityNorm +
    0.14 * fv.earlyMomentum + 0.05 * fv.daysRemainingFrac +
    (-0.10) * fv.whaleConcentration + 0.13 * fv.teamStrength +
    0.07 * fv.teamExperience + 0.09 * fv.prevSuccessBoost +
    0.06 * fv.advisoryStrength + 0.10 * fv.communityEngagement +
    0.08 * fv.sentimentNorm + 0.07 * fv.githubActivity +
    0.04 * fv.socialReach + 0.11 * fv.techRobustness +
    0.09 * fv.auditSafety + 0.10 * fv.contractSecurity +
    0.10 * fv.projectQuality + 0.07 * fv.roadmapScore +
    0.06 * fv.whitepaperQuality + (-0.09) * fv.legalRisk +
    (-0.06) * fv.liquidityRisk + (-0.05) * fv.categoryRisk)

/-- `runLogisticRegression` returns `1 / (1 + Math.exp(-logit * 4))`.  The
transcendental `Math.exp(-(lrLogit fv) * 4)` is supplied as the abstract
parameter `e`; the only property of the host exponential used anywhere is
its positivity. -/
def runLogisticRegression (e : ℚ) : ℚ := 1 / (1 + e)

/-- `runGBDT`: clamp of `0.5 + 0.1 *` the summed tree outputs. -/
def runGBDT (fv : FeatureVector) : ℚ :=
  clamp (0.5 + 0.1 * (GBDT_TREES.map (evalTree fv)).sum)

/-- The five hard-coded random-forest stumps: (feature, weight) lists. -/
def RF_TREES : List (List ((FeatureVector → ℚ) × ℚ)) := [
  [(fun fv => fv.fundingCompletionRate, 0.45), (fun fv => fv.earlyMomentum, 0.35),
   (fun fv => fv.teamStrength, 0.20)],
  [(fun fv => fv.communityEngagement, 0.40), (fun fv => fv.githubActivity, 0.35),
   (fun fv => fv.sentimentNorm, 0.25)],
  [(fun fv => fv.contractSecurity, 0.40), (fun fv => fv.techRobustness, 0.35),
   (fun fv => fv.auditSafety, 0.25)],
  [(fun fv => fv.projectQuality, 0.40), (fun fv => fv.roadmapScore, 0.30),
   (fun fv => fv.advisoryStrength, 0.30)],
  [(fun fv => fv.teamExperience, 0.35), (fun fv => fv.prevSuccessBoost, 0.40),
   (fun fv => fv.socialReach, 0.25)]]

/-- One random-forest stump prediction: clamp of the weighted feature sum. -/
def rfPred (fv : FeatureVector) (tree : List ((FeatureVector → ℚ) × ℚ)) : ℚ :=
  clamp ((tree.map (fun fw => fw.1 fv * fw.2)).sum)

/-- `runRandomForest`: mean of the stump predictions. -/
def runRandomForest (fv : FeatureVector) : ℚ :=
  (RF_TREES.map (rfPred fv)).sum / (RF_TREES.length : ℚ)

/-- The source's confidence-level labels. -/
inductive ConfidenceLevel
  | LOW
  | MEDIUM
  | HIGH
deriving DecidableEq, Repr

/-- The `SuccessPrediction` result: probability, the confidence interval
endpoints, and the confidence label. -/
structure SuccessPrediction where
  probability : ℚ
  ciLow : ℚ
  ciHigh : ℚ
  confidenceLevel : ConfidenceLevel
deriving DecidableEq, Repr

/-- Round to three decimals as the source does:
`Math.round(x * 1000) / 1000`. -/
def round3 (q : ℚ) : ℚ := (roundJS (q * 1000) : ℚ) / 1000

/-- `predictSuccessProbability`: ensemble probability
`0.35·lr + 0.45·gb + 0.20·rf` and its `±1.96·std` confidence interval,
each endpoint clamped and rounded to three decimals.  The two
transcendental host calls are supplied as abstract parameters: `e` is
`Math.exp(-(lrLogit fv) * 4)` and `s` is `Math.sqrt` of the ensemble
variance `0.35·(lr−p)² + 0.45·(gb−p)² + 0.20·(rf−p)²`; the bounds below
use only `0 < e` and `0 ≤ s`, which hold of the host functions. -/
def predictSuccessProbability (fv : FeatureVector) (e s : ℚ) : SuccessPrediction :=
  let lr := runLogisticRegression e
  let gb := runGBDT fv
  let rf := runRandomForest fv
  let prob := 0.35 * lr + 0.45 * gb + 0.20 * rf
  let margin := 1.96 * s
  { probability := round3 prob
    ciLow := round3 (max 0 (prob - margin))
    ciHigh := round3 (min 1 (prob + margin))
    confidenceLevel :=
      if s < 0.05 then ConfidenceLevel.HIGH
      else if s < 0.12 then ConfidenceLevel.MEDIUM
      else ConfidenceLevel.LOW }

theorem runLogisticRegression_bounds (e : ℚ) (he : 0 < e) :
    0 ≤ runLogisticRegression e ∧ runLogisticRegression e ≤ 1 := by
  unfold runLogisticRegression
  constructor
  · exact div_nonneg (by norm_num) (by linarith)
  · rw [div_le_one (by linarith)]
    linarith

theorem runRandomForest_bounds (fv : FeatureVector) :
    0 ≤ runRandomForest fv ∧ runRandomForest fv ≤ 1 := by
  have h0 : ∀ x ∈ RF_TREES.map (rfPred fv), 0 ≤ x := by
    intro x hx
    obtain ⟨t, _, rfl⟩ := List.mem_map.mp hx
    exact clamp_nonneg _
  have h1 : ∀ x ∈ RF_TREES.map (rfPred fv), x ≤ 1 := by
    intro x hx
    obtain ⟨t, _, rfl⟩ := List.mem_map.mp hx
    exact clamp_le_one _
  have hsum0 : 0 ≤ (RF_TREES.map (rfPred fv)).sum := List.sum_nonneg h0
  have hsum1 : (RF_TREES.map (rfPred fv)).sum ≤ 5 := by
    have := List.sum_le_card_nsmul (RF_TREES.map (rfPred fv)) 1 h1
    simpa [RF_TREES] using this
  have hlen : (RF_TREES.length : ℚ) = 5 := by norm_num [RF_TREES]
  unfold runRandomForest
  rw [hlen]
  constructor
  · exact div_nonneg hsum0 (by norm_num)
  · rw [div_le_one (by norm_num)]
    exact hsum1

theorem roundJS_mono {q r : ℚ} (h : q ≤ r) : roundJS q ≤ roundJS r :=
  Int.floor_le_floor (by linarith)

theorem round3_mono {q r : ℚ} (h : q ≤ r) : round3 q ≤ round3 r := by
  unfold round3
  have h2 : roundJS (q * 1000) ≤ roundJS (r * 1000) := roundJS_mono (by linarith)
  exact (div_le_div_right (by norm_num)).mpr (by exact_mod_cast h2)

theorem round3_nonneg {q : ℚ} (h : 0 ≤ q) : 0 ≤ round3 q := by
  unfold round3
  apply div_nonneg _ (by norm_num)
  have h2 : (0 : ℤ) ≤ roundJS (q * 1000) := by
    unfold roundJS
    apply Int.le_floor.mpr
    push_cast
    linarith
  exact_mod_cast h2

theorem round3_le_one {q : ℚ} (h : q ≤ 1) : round3 q ≤ 1 := by
  unfold round3
  rw [div_le_one (by norm_num)]
  have h2 : roundJS (q * 1000) ≤ 1000 := by
    unfold roundJS
    have h3 : ⌊q * 1000 + 1 / 2⌋ < 1001 := by
      apply Int.floor_lt.mpr
      push_cast
      linarith
    omega
  exact_mod_cast h2

/-- C9: for every feature vector (and any host exponential value `e > 0`
and square-root value `s ≥ 0`), the prediction is a probability in [0, 1]
and the confidence interval satisfies `0 ≤ low ≤ probability ≤ high ≤ 1`. -/
theorem predictSuccessProbability_bounds (fv : FeatureVector) (e s : ℚ)
    (he : 0 < e) (hs : 0 ≤ s) :
    0 ≤ (predictSuccessProbability fv e s).probability ∧
    (predictSuccessProbability fv e s).probability ≤ 1 ∧
    0 ≤ (predictSuccessProbability fv e s).ciLow ∧
    (predictSuccessProbability fv e s).ciHigh ≤ 1 ∧
    (predictSuccessProbability fv e s).ciLow ≤
      (predictSuccessProbability fv e s).probability ∧
    (predictSuccessProbability fv e s).probability ≤
      (predictSuccessProbability fv e s).ciHigh := by
  obtain ⟨hlr0, hlr1⟩ := runLogisticRegression_bounds e he
  have hgb0 : 0 ≤ runGBDT fv := clamp_nonneg _
  have hgb1 : runGBDT fv ≤ 1 := clamp_le_one _
  obtain ⟨hrf0, hrf1⟩ := runRandomForest_bounds fv
  have hprob0 : 0 ≤ 0.35 * runLogisticRegression e + 0.45 * runGBDT fv +
      0.20 * runRandomForest fv := by linarith
  have hprob1 : 0.35 * runLogisticRegression e + 0.45 * runGBDT fv +
      0.20 * runRandomForest fv ≤ 1 := by linarith
  have hm : 0 ≤ 1.96 * s := by linarith
  refine ⟨?_, ?_, ?_, ?_, ?_, ?_⟩
  · exact round3_nonneg hprob0
  · exact round3_le_one hprob1
  · exact round3_nonneg (le_max_left 0 _)
  · exact round3_le_one (min_le_left 1 _)
  · exact round3_mono (max_le hprob0 (by linarith))
  · exact round3_mono (le_min hprob1 (by linarith))

/-- The all-zero feature vector, used by the witness. -/
def fv0 : FeatureVector :=
  ⟨0, 0, 0, 0, 0, 0, 0, 0, 0, 0, 0, 0, 0, 0, 0, 0, 0, 0, 0, 0, 0, 0⟩

/-- Witness for C9: the bounds at the all-zero feature vector with
exponential value 1 and square-root value 0. -/
theorem predictSuccessProbability_bounds_witness :
    0 ≤ (predictSuccessProbability fv0 1 0).probability ∧
    (predictSuccessProbability fv0 1 0).probability ≤ 1 ∧
    0 ≤ (predictSuccessProbability fv0 1 0).ciLow ∧
    (predictSuccessProbability fv0 1 0).ciHigh ≤ 1 ∧
    (predictSuccessProbability fv0 1 0).ciLow ≤
      (predictSuccessProbability fv0 1 0).probability ∧
    (predictSuccessProbability fv0 1 0).probability ≤
      (predictSuccessProbability fv0 1 0).ciHigh :=
  predictSuccessProbability_bounds fv0 1 0 (by norm_num) (by norm_num)

end RiskEngine

/-! ## Email retry task
(backend `notification/tasks/email-retry.task.ts`, `EmailRetryTask.handleCron`) -/

namespace EmailRetry

/-- Outbox email status values. -/
inductive EmailStatus
  | PENDING
  | SENT
  | FAILED
deriving DecidableEq, Repr

/-- One `emailOutbox` row: unique `id`, recipient (the source's `to`),
`subject`, `html`, `status`, `attempts`, `lastError`. -/
structure OutboxEmail where
  id : Nat
  recipient : String
  subject : String
  html : String
  status : EmailStatus
  attempts : Nat
  lastError : Option String
deriving DecidableEq, Repr

/-- `MAX_ATTEMPTS = 3`. -/
def MAX_ATTEMPTS : Nat := 3

/-- The retry query: rows with `status: 'FAILED'` and
`attempts: { lt: MAX_ATTEMPTS }`, in batches of `take: 50`. -/
def selectFailed (outbox : List OutboxEmail) : List OutboxEmail :=
  (outbox.filter (fun e => decide (e.status = EmailStatus.FAILED) &&
    decide (e.attempts < MAX_ATTEMPTS))).take 50

/-- One retried email: on send success the row becomes `SENT` with
`attempts + 1`; on send failure `attempts + 1` and `lastError` recorded.
`send e.id = none` means the SendGrid call succeeded, `some msg` that it
threw `msg`. -/
def retryEmail (send : Nat → Option String) (e : OutboxEmail) : OutboxEmail :=
  match send e.id with
  | none => { e with status := EmailStatus.SENT, attempts := e.attempts + 1 }
  | some msg => { e with attempts := e.attempts + 1, lastError := some msg }

/-- `handleCron`: when the SendGrid API key is configured, every selected
row is retried (the per-row DB update keyed by `id`); when the key is
missing, the run returns before sending or updating anything. -/
def handleCron (apiKeyPresent : Bool) (send : Nat → Option String)
    (outbox : List OutboxEmail) : List OutboxEmail :=
  if apiKeyPresent then
    let sel := selectFailed outbox
    outbox.map (fun e =>
      if sel.any (fun x => x.id == e.id) then retryEmail send e else e)
  else outbox

/-- The per-run increment property claimed of `handleCron`: every selected
email's stored attempt counter ends up incremented by exactly one. -/
def incrementsSelected (apiKeyPresent : Bool) (send : Nat → Option String)
    (outbox : List OutboxEmail) : Prop :=
  ∀ e ∈ selectFailed outbox,
    ((handleCron apiKeyPresent send outbox).find? (fun x => x.id == e.id)).map
      OutboxEmail.attempts = some (e.attempts + 1)

/-- A one-row outbox with a failed, never-attempted email. -/
def demoOutbox : List OutboxEmail :=
  [⟨0, "a@example.com", "s", "h", EmailStatus.FAILED, 0, none⟩]

/-- Counterexample to C10 as stated: with the SendGrid API key missing, the
run selects the failed email for retry but returns early, leaving its
attempt counter unchanged — so the counter is not incremented for every
selected email on every run. -/
theorem handleCron_counterexample :
    ¬ incrementsSelected false (fun _ => none) demoOutbox := by
  unfold incrementsSelected
  decide

/-- Selected emails really satisfy the query filter. -/
theorem selectFailed_sound (outbox : List OutboxEmail) (e : OutboxEmail)
    (he : e ∈ selectFailed outbox) :
    e ∈ outbox ∧ e.status = EmailStatus.FAILED ∧ e.attempts < MAX_ATTEMPTS := by
  have hmem : e ∈ outbox.filter (fun e => decide (e.status = EmailStatus.FAILED) &&
      decide (e.attempts < MAX_ATTEMPTS)) :=
    ((List.take_sublist 50 _).subset) he
  obtain ⟨h1, h2⟩ := List.mem_filter.mp hmem
  simp only [Bool.and_eq_true, decide_eq_true_eq] at h2
  exact ⟨h1, h2.1, h2.2⟩

/-- C10 (amended): on every run, only emails with status FAILED and fewer
than `MAX_ATTEMPTS = 3` attempts are selected for retry; when the SendGrid
API key is configured, each selected email's counter is incremented by
exactly one (send success or failure alike) and unselected rows are
untouched; when the key is missing the whole outbox is untouched; and in
either case a row that has reached 3 attempts is never selected nor
modified. -/
theorem handleCron_spec (apiKeyPresent : Bool) (send : Nat → Option String)
    (outbox : List OutboxEmail)
    (hids : (outbox.map OutboxEmail.id).Nodup) :
    (∀ e ∈ selectFailed outbox,
      e.status = EmailStatus.FAILED ∧ e.attempts < MAX_ATTEMPTS) ∧
    (apiKeyPresent = false → handleCron apiKeyPresent send outbox = outbox) ∧
    List.Forall₂ (fun e e' =>
        (apiKeyPresent = true → e ∈ selectFailed outbox →
          e'.attempts = e.attempts + 1) ∧
        (apiKeyPresent = true → e ∉ selectFailed outbox → e' = e) ∧
        (MAX_ATTEMPTS ≤ e.attempts → e' = e))
      outbox (handleCron apiKeyPresent send outbox) := by
  refine ⟨fun e he => (selectFailed_sound outbox e he).2, ?_, ?_⟩
  · intro hk
    simp [handleCron, hk]
  · cases apiKeyPresent with
    | false =>
        have hout : handleCron false send outbox = outbox := by
          simp [handleCron]
        rw [hout, List.forall₂_same]
        intro e he
        refine ⟨fun h _ => absurd h (by simp), fun h _ => absurd h (by simp),
          fun _ => rfl⟩
    | true =>
        have hout : handleCron true send outbox =
            outbox.map (fun e =>
              if (selectFailed outbox).any (fun x => x.id == e.id) then
                retryEmail send e else e) := by
          simp [handleCron]
        rw [hout]
        rw [List.forall₂_map_right_iff, List.forall₂_same]
        intro e he
        by_cases hsel : e ∈ selectFailed outbox
        · have hany : (selectFailed outbox).any (fun x => x.id == e.id) = true :=
            List.any_eq_true.mpr ⟨e, hsel, by simp⟩
          refine ⟨fun _ _ => ?_, fun _ hns => absurd hsel hns, fun hge => ?_⟩
          · rw [if_pos hany]
            unfold retryEmail
            cases send e.id <;> rfl
          · exact absurd (selectFailed_sound outbox e hsel).2.2
              (by omega)
        · have hany : (selectFailed outbox).any (fun x => x.id == e.id) = false := by
            rw [Bool.eq_false_iff]
            intro hx
            obtain ⟨x, hxmem, hxid⟩ := List.any_eq_true.mp hx
            have hxout : x ∈ outbox := (selectFailed_sound outbox x hxmem).1
            have hxe : x = e :=
              List.inj_on_of_nodup_map hids hxout he (by simpa using hxid)
            exact hsel (hxe ▸ hxmem)
          rw [if_neg (by simp [hany])]
          exact ⟨fun _ hin => absurd hin hsel, fun _ _ => rfl, fun _ => rfl⟩

/-- A two-row outbox: one retryable failed email and one failed email
already at 3 attempts. -/
def demoOutbox2 : List OutboxEmail :=
  [⟨0, "a@example.com", "s", "h", EmailStatus.FAILED, 0, none⟩,
   ⟨1, "b@example.com", "t", "g", EmailStatus.FAILED, 3, some "err"⟩]

/-- Witness for C10's amended theorem: a configured-key run over the
concrete two-row outbox, with a send function that throws. -/
theorem handleCron_spec_witness :
    (∀ e ∈ selectFailed demoOutbox2,
      e.status = EmailStatus.FAILED ∧ e.attempts < MAX_ATTEMPTS) ∧
    ((true : Bool) = false →
      handleCron true (fun _ => some "boom") demoOutbox2 = demoOutbox2) ∧
    List.Forall₂ (fun e e' =>
        ((true : Bool) = true → e ∈ selectFailed demoOutbox2 →
          e'.attempts = e.attempts + 1) ∧
        ((true : Bool) = true → e ∉ selectFailed demoOutbox2 → e' = e) ∧
        (MAX_ATTEMPTS ≤ e.attempts → e' = e))
      demoOutbox2 (handleCron true (fun _ => some "boom") demoOutbox2) :=
  handleCron_spec true (fun _ => some "boom") demoOutbox2 (by decide)

end EmailRetry

end NovaFund
